import Mathlib

/-!
# Verification of `node-pptx-parser` (`src/index.ts`)

A shallow embedding of the PPTX parser. The library reads a ZIP archive,
parses XML parts with `xml2js` (default options: every child element is
stored under its tag name as a non-empty array, attributes under `"$"`,
text under `"_"` or as a bare string), and then

* `getSlideRelations` filters the relationship records whose `Type`
  attribute ends with `"/slide"`;
* `parse` locates `ppt/presentation.xml` and
  `ppt/_rels/presentation.xml.rels`, resolves each slide relation's target
  against the archive and drops relations whose target file is missing;
* `extractTextFromSlide` walks a parsed slide tree and joins run texts,
  break markers and paragraph boundaries into one text block per text body.

The dynamically typed `xml2js` output is modelled by `JSVal`
(string / object / array).  JavaScript exceptions (property access on
`undefined`, calling `.filter`/`.forEach`/`.endsWith` on a value that does
not have it) are modelled by `Option`/`Except` failure values.
-/

/-- A JavaScript value as produced by `xml2js`: a string, an object
(ordered key/value list) or an array.  `undefined` is represented by
`Option.none` at use sites. -/
inductive JSVal where
  | str : String → JSVal
  | obj : List (String × JSVal) → JSVal
  | arr : List JSVal → JSVal
deriving Repr

/-- First binding wins, as for distinct-key JS objects. -/
def lookupKV (kvs : List (String × JSVal)) (k : String) : Option JSVal :=
  match kvs with
  | [] => none
  | (k1, v) :: rest => if k1 = k then some v else lookupKV rest k

/-- JS property access `v[k]` for a non-numeric key `k`: defined only on
objects; on strings and arrays such a key reads as `undefined` (`none`).
Accessing a property of `undefined` itself throws and is handled at the
use sites. -/
def getProp (v : JSVal) (k : String) : Option JSVal :=
  match v with
  | .obj kvs => lookupKV kvs k
  | _ => none

/-- JS index access `v[0]`: first array element, first character of a
string, or an object's `"0"` property. -/
def index0 (v : JSVal) : Option JSVal :=
  match v with
  | .arr [] => none
  | .arr (x :: _) => some x
  | .str s => if s = "" then none else some (.str (String.singleton s.front))
  | .obj kvs => lookupKV kvs "0"

/-- JS truthiness of a possibly-`undefined` value: `undefined` and the
empty string are falsy; every object and array (even empty) is truthy. -/
def truthy (v : Option JSVal) : Bool :=
  match v with
  | none => false
  | some (.str s) => !(s = "")
  | some (.obj _) => true
  | some (.arr _) => true

/-- JS `String(v)` conversion: objects print as `"[object Object]"`,
arrays join their stringified elements with `","`. -/
def jsToString (v : JSVal) : String :=
  match v with
  | .str s => s
  | .obj _ => "[object Object]"
  | .arr l => String.intercalate "," (l.attach.map (fun p => jsToString p.1))
decreasing_by
  have h := List.sizeOf_lt_of_mem p.2
  simp only [JSVal.arr.sizeOf_spec]
  omega

/-- Stringification used by `Array.prototype.join`: `undefined` (and
`null`) become the empty string; strings are kept as they are (the
explicit `.str` case agrees with `jsToString` and keeps the definition
reducible). -/
def tokenToString (t : Option JSVal) : String :=
  match t with
  | none => ""
  | some (.str s) => s
  | some v => jsToString v

/-- `paragraphText.join("")` on the collected tokens. -/
def joinTokens (toks : List (Option JSVal)) : String :=
  String.join (toks.map tokenToString)

/-- Sequential `forEach`/`map` where the body may throw (`none`): the
first failure aborts the whole loop. -/
def mapOpt (f : α → Option β) : List α → Option (List β)
  | [] => some []
  | x :: xs =>
    match f x with
    | none => none
    | some y => (mapOpt f xs).map (fun ys => y :: ys)

/-! ## `extractTextFromSlide` (src/index.ts lines 202-260) -/

/-- Body of the run loop: `if (run["a:t"]) paragraphText.push(run["a:t"][0])`.
A run without a (truthy) `a:t` child contributes no token; the pushed token
is the first element of the `a:t` array and may itself be `undefined`. -/
def processRun (run : JSVal) : List (Option JSVal) :=
  let t := getProp run "a:t"
  if truthy t then [t.bind index0] else []

/-- Body of the paragraph loop (lines 222-247): collect run tokens, append
a newline token when an `a:br` marker is present, and append a newline
token when no token was collected or an `a:endParaRPr` marker is present.
Returns `none` when the JS code would throw (`forEach` on a truthy
non-array `a:r`). -/
def processParagraph (paragraph : JSVal) : Option (List (Option JSVal)) :=
  let r := getProp paragraph "a:r"
  let base : Option (List (Option JSVal)) :=
    if truthy r then
      match r with
      | some (.arr runs) => some (runs.map processRun).flatten
      | _ => none
    else some []
  match base with
  | none => none
  | some toks =>
    let toks := if truthy (getProp paragraph "a:br") then toks ++ [some (.str "\n")] else toks
    let toks :=
      if toks.length == 0 || truthy (getProp paragraph "a:endParaRPr") then
        toks ++ [some (.str "\n")]
      else toks
    some toks

/-- The two conditional newline appends of the paragraph loop (lines
234-242), factored out for the refinement proofs: append a newline token
for a break marker, then append one when no token was collected or an
end-of-paragraph marker is present. -/
def stepTokens (toks : List (Option JSVal)) (br eop : Bool) : List (Option JSVal) :=
  let toks := if br then toks ++ [some (JSVal.str "\n")] else toks
  if toks.length == 0 || eop then toks ++ [some (JSVal.str "\n")] else toks

/-- Body of the text-body loop (lines 217-252): one joined string per
paragraph that produced at least one token, the non-empty paragraph
strings joined with `"\n"` and pushed (as a singleton contribution) when
at least one paragraph string was collected. -/
def processTextBody (textBody : JSVal) : Option (List String) :=
  let ap := getProp textBody "a:p"
  if truthy ap then
    match ap with
    | some (.arr paras) =>
      match mapOpt processParagraph paras with
      | none => none
      | some tokLists =>
        let paragraphTexts :=
          tokLists.filterMap (fun toks =>
            if toks.length > 0 then some (joinTokens toks) else none)
        some (if paragraphTexts.length > 0 then [String.intercalate "\n" paragraphTexts] else [])
    | _ => none
  else some []

/-- Body of the shape loop (lines 215-255): a shape without a (truthy)
`p:txBody` child contributes nothing; otherwise every text body is
processed in order. -/
def processShape (shape : JSVal) : Option (List String) :=
  let tb := getProp shape "p:txBody"
  if truthy tb then
    match tb with
    | some (.arr tbs) => (mapOpt processTextBody tbs).map List.flatten
    | _ => none
  else some []

/-- `extractTextFromSlide` (lines 202-260).  `some texts` is a normal
return; `none` models a thrown `TypeError` (property access on an
`undefined` produced by indexing, or `forEach` on a non-array). -/
def extractTextFromSlide (slideData : JSVal) : Option (List String) :=
  let sld := getProp slideData "p:sld"
  if truthy sld then
    let cSld := sld.bind (fun v => getProp v "p:cSld")
    if truthy cSld then
      match cSld.bind index0 with
      | none => none
      | some c0 =>
        let spTreeArr := getProp c0 "p:spTree"
        if truthy spTreeArr then
          match spTreeArr.bind index0 with
          | none => none
          | some spTree =>
            let sp := getProp spTree "p:sp"
            if truthy sp then
              match sp with
              | some (.arr shapes) => (mapOpt processShape shapes).map List.flatten
              | _ => none
            else some []
        else some []
    else some []
  else some []

/-! ## `getSlideRelations` (src/index.ts lines 152-160) -/

/-- The mapped record `{ id: rel["$"]["Id"], target: rel["$"]["Target"] }`.
Either attribute may be absent (`undefined`). -/
structure SlideRelation where
  id : Option JSVal
  target : Option JSVal
deriving Repr

/-- JS `String.prototype.endsWith(search)`: the string's final characters
equal `search` (compared as whole-character suffix equality, which agrees
with the byte-level comparison on valid strings). -/
def jsEndsWith (s suffix : String) : Bool :=
  suffix.data.isSuffixOf s.data

/-- One step of the `filter` predicate `rel["$"]["Type"].endsWith("/slide")`
followed by the `map`: `none` models a throw (no `"$"` object, or a `Type`
that is not a string), `some none` a record filtered out, `some (some r)`
a kept record. -/
def relFromRecord (rel : JSVal) : Option (Option SlideRelation) :=
  match getProp rel "$" with
  | none => none
  | some attrs =>
    match getProp attrs "Type" with
    | some (.str ty) =>
      if jsEndsWith ty "/slide" then
        some (some { id := getProp attrs "Id", target := getProp attrs "Target" })
      else some none
    | _ => none

/-- `getSlideRelations` (lines 152-160): reads
`relationshipsData["Relationships"]["Relationship"]`, filters the records
whose `Type` attribute ends with `"/slide"` and maps them to
`SlideRelation`s, preserving document order.  `none` models a throw. -/
def getSlideRelations (relationshipsData : JSVal) : Option (List SlideRelation) :=
  match getProp relationshipsData "Relationships" with
  | none => none
  | some rels =>
    match getProp rels "Relationship" with
    | some (.arr records) => (mapOpt relFromRecord records).map (fun l => l.filterMap id)
    | _ => none

/-- A relationship record the filter predicate can examine without
throwing: it has an attribute object with a string `Type`. -/
def relRecordWF (r : JSVal) : Bool :=
  match getProp r "$" with
  | some attrs =>
    match getProp attrs "Type" with
    | some (.str _) => true
    | _ => false
  | none => false

/-- The filtering rule as the spec states it: a record is a slide
relation iff its `Type` attribute value ends with the literal,
case-sensitive suffix "/slide". -/
def relTypeEndsSlide (r : JSVal) : Bool :=
  match getProp r "$" with
  | some attrs =>
    match getProp attrs "Type" with
    | some (.str ty) => jsEndsWith ty "/slide"
    | _ => false
  | none => false

/-- The record projection as the spec states it: the `Id` and `Target`
attributes. -/
def mkSlideRelation (r : JSVal) : SlideRelation :=
  match getProp r "$" with
  | some attrs => { id := getProp attrs "Id", target := getProp attrs "Target" }
  | none => { id := none, target := none }

/-! ## `parse` (src/index.ts lines 47-109) -/

/-- One archive entry, as yielded by `unzipper.Open.file(...).files`:
its path, its streamed text content (`getFileContent`), and the result of
`parseXmlContent` on that content (`none` when `xml2js` rejects). -/
structure Entry where
  path : String
  xml : String
  parsed : Option JSVal
deriving Repr

/-- A thrown JS error. The text of engine-generated `TypeError`s and of
`xml2js` diagnostics is not modelled. -/
inductive JSError where
  | message : String → JSError
  | typeError : JSError
  | xmlError : JSError
deriving Repr, DecidableEq

/-- `error.message` of a thrown error (engine texts modelled abstractly). -/
def errMessage (e : JSError) : String :=
  match e with
  | .message m => m
  | .typeError => "TypeError"
  | .xmlError => "XML parse error"

/-- `directory.files.find((d) => d.path === p)`. -/
def findFile (files : List Entry) (p : String) : Option Entry :=
  files.find? (fun e => e.path == p)

/-- A `{ path, xml, parsed }` record for the presentation and
relationships parts. -/
structure PartDoc where
  path : String
  xml : String
  parsed : JSVal
deriving Repr

/-- One returned slide: relation id, archive path, raw XML and parsed tree. -/
structure ParsedSlide where
  id : Option JSVal
  path : String
  xml : String
  parsed : JSVal
deriving Repr

/-- The result shape of `parse`. -/
structure ParsedPresentation where
  presentation : PartDoc
  relationships : PartDoc
  slides : List ParsedSlide
deriving Repr

/-- `await this.parseXmlContent(...)` on an entry's content: rejects when
`xml2js` rejects. -/
def parseXmlContent (e : Entry) : Except JSError JSVal :=
  match e.parsed with
  | none => .error .xmlError
  | some v => .ok v

/-- Template-literal stringification: `` `ppt/${relation.target}` `` turns
`undefined` into the text `"undefined"`; strings are kept as they are
(the explicit `.str` case agrees with `jsToString` and keeps the
definition reducible). -/
def templateStr (v : Option JSVal) : String :=
  match v with
  | none => "undefined"
  | some (.str s) => s
  | some w => jsToString w

/-- One task of the `Promise.all` fan-out (lines 77-90): resolve the
relation target against the archive; a missing file resolves to `null`
(here `none`), an XML failure rejects. -/
def loadSlide (files : List Entry) (relation : SlideRelation) : Except JSError (Option ParsedSlide) :=
  match findFile files ("ppt/" ++ templateStr relation.target) with
  | none => .ok none
  | some slideFile =>
    match slideFile.parsed with
    | none => .error .xmlError
    | some parsed => .ok (some { id := relation.id, path := slideFile.path, xml := slideFile.xml, parsed := parsed })

/-- `Promise.all` over an in-order list of fallible tasks: the results
keep list order, any rejection rejects the whole batch. -/
def mapExcept (f : α → Except ε β) : List α → Except ε (List β)
  | [] => .ok []
  | x :: xs =>
    match f x with
    | .error e => .error e
    | .ok y => (mapExcept f xs).map (fun ys => y :: ys)

/-- Body of the `try` block of `parse` (lines 48-105). -/
def parseInner (files : List Entry) : Except JSError ParsedPresentation :=
  match findFile files "ppt/presentation.xml", findFile files "ppt/_rels/presentation.xml.rels" with
  | some presentationXml, some slideRelationsXml =>
    match parseXmlContent presentationXml with
    | .error e => .error e
    | .ok presentationData =>
      match parseXmlContent slideRelationsXml with
      | .error e => .error e
      | .ok relationshipsData =>
        match getSlideRelations relationshipsData with
        | none => .error .typeError
        | some slideRelations =>
          match mapExcept (loadSlide files) slideRelations with
          | .error e => .error e
          | .ok slides =>
            .ok {
              presentation := { path := "ppt/presentation.xml", xml := presentationXml.xml, parsed := presentationData },
              relationships := { path := "ppt/_rels/presentation.xml.rels", xml := slideRelationsXml.xml, parsed := relationshipsData },
              slides := slides.filterMap id }
  | _, _ => .error (.message "Invalid PPTX file structure")

/-- `parse` (lines 47-109): the `catch` wraps every failure into
`new Error("Failed to parse PPTX: " + error.message)`. -/
def parse (files : List Entry) : Except JSError ParsedPresentation :=
  match parseInner files with
  | .ok r => .ok r
  | .error e => .error (.message ("Failed to parse PPTX: " ++ errMessage e))

/-! ## Structured slide documents

`xml2js`-shaped trees for slides: a child-element key is present iff the
element has at least one child of that tag, and then maps to the non-empty
array of the children, in document order.  These constructors produce
exactly the trees `xml2js` yields for slide XML whose `a:t` elements are
plain text. -/

/-- An `a:r` run: `t = some s` when the run has an `a:t` child with text
`s` (stored as `"a:t" ↦ [s]`), `t = none` when it has no `a:t` child. -/
structure Run where
  t : Option String
deriving Repr, DecidableEq

/-- An `a:p` paragraph: its runs in order, and whether an `a:br` or an
`a:endParaRPr` child is present. -/
structure Paragraph where
  runs : List Run
  br : Bool
  endParaRPr : Bool
deriving Repr, DecidableEq

/-- A `p:txBody`: its paragraphs in order. -/
structure TxBody where
  paras : List Paragraph
deriving Repr, DecidableEq

/-- A `p:sp` shape: its text bodies in order (a schema-valid shape has at
most one). -/
structure Shape where
  txBodys : List TxBody
deriving Repr, DecidableEq

/-- A slide: its shapes in document order. -/
structure Slide where
  shapes : List Shape
deriving Repr, DecidableEq

/-- The `xml2js` tree of a run. -/
def runToJSVal (r : Run) : JSVal :=
  .obj (match r.t with
    | some s => [("a:t", .arr [.str s])]
    | none => [])

/-- The `xml2js` tree of a paragraph (`a:br` and `a:endParaRPr` children
carry no text; an empty element parses as `""`). -/
def paragraphToJSVal (p : Paragraph) : JSVal :=
  .obj ((if p.runs.isEmpty then [] else [("a:r", JSVal.arr (p.runs.map runToJSVal))])
    ++ (if p.br then [("a:br", JSVal.arr [.str ""])] else [])
    ++ (if p.endParaRPr then [("a:endParaRPr", JSVal.arr [.str ""])] else []))

/-- The `xml2js` tree of a text body. -/
def txBodyToJSVal (tb : TxBody) : JSVal :=
  .obj (if tb.paras.isEmpty then [] else [("a:p", JSVal.arr (tb.paras.map paragraphToJSVal))])

/-- The `xml2js` tree of a shape. -/
def shapeToJSVal (sh : Shape) : JSVal :=
  .obj (if sh.txBodys.isEmpty then [] else [("p:txBody", JSVal.arr (sh.txBodys.map txBodyToJSVal))])

/-- The full `xml2js` tree of a slide document
(`p:sld → p:cSld → p:spTree → p:sp*`). -/
def slideToJSVal (s : Slide) : JSVal :=
  .obj [("p:sld", .obj [("p:cSld", .arr [.obj [("p:spTree", .arr
    [.obj (if s.shapes.isEmpty then [] else [("p:sp", JSVal.arr (s.shapes.map shapeToJSVal))])])]])])]

/-! Expected extraction results, written from the spec's description of
the algorithm (§4.2); the refinement lemmas below prove them equal to what
the embedded code computes. -/

/-- The run texts collected for a paragraph (step 3a: a run contributes
its text-content child's value if present). -/
def runTexts (p : Paragraph) : List String :=
  p.runs.filterMap (fun r => r.t)

/-- The token strings of a paragraph with run texts `T` (steps 3a-3c):
run texts, then a newline for an explicit break, then a newline when
nothing was collected or an end-of-paragraph marker is present. -/
def paraTokensOf (T : List String) (br eop : Bool) : List String :=
  let t := if br then T ++ ["\n"] else T
  if t.isEmpty || eop then t ++ ["\n"] else t

/-- The token strings of one paragraph. -/
def paraTokens (p : Paragraph) : List String :=
  paraTokensOf (runTexts p) p.br p.endParaRPr

/-- Step 3d: the paragraph string is the separator-free join of its tokens. -/
def paraString (p : Paragraph) : String :=
  String.join (paraTokens p)

/-- Steps 4-5: a text body with at least one paragraph yields the
newline-join of its paragraph strings; an empty one yields nothing. -/
def txBodyBlock (tb : TxBody) : Option String :=
  if tb.paras.isEmpty then none
  else some (String.intercalate "\n" (tb.paras.map paraString))

/-- The blocks contributed by one shape, in text-body order. -/
def shapeBlocks (sh : Shape) : List String :=
  sh.txBodys.filterMap txBodyBlock

/-- The blocks of a whole slide, in shape order. -/
def slideBlocks (s : Slide) : List String :=
  (s.shapes.map shapeBlocks).flatten

/-- A minimal presentation part entry. -/
def presEntry : Entry :=
  { path := "ppt/presentation.xml", xml := "<p:presentation/>",
    parsed := some (.obj [("p:presentation", .str "")]) }

/-- A relationships part with two slide relations, `rId2` targeting
`slides/slide2.xml` and then `rId3` targeting `slides/slide3.xml`. -/
def relsEntry : Entry :=
  { path := "ppt/_rels/presentation.xml.rels", xml := "<Relationships/>",
    parsed := some (.obj [("Relationships", .obj [("Relationship", .arr
      [.obj [("$", .obj [("Id", .str "rId2"), ("Type", .str "http://x/slide"),
        ("Target", .str "slides/slide2.xml")])],
       .obj [("$", .obj [("Id", .str "rId3"), ("Type", .str "http://x/slide"),
        ("Target", .str "slides/slide3.xml")])]])])]) }

/-- The slide part targeted by `rId2`. -/
def slide2Entry : Entry :=
  { path := "ppt/slides/slide2.xml", xml := "<p:sld/>",
    parsed := some (.obj [("p:sld", .str "")]) }

/-- The slide part targeted by `rId3`. -/
def slide3Entry : Entry :=
  { path := "ppt/slides/slide3.xml", xml := "<p:sld/>",
    parsed := some (.obj [("p:sld", .str "")]) }

/-- A shape contributes a text block iff one of its text bodies has at
least one paragraph. -/
def shapeContributes (sh : Shape) : Bool :=
  sh.txBodys.any (fun tb => !tb.paras.isEmpty)

/-- The number of shapes of a slide that contain at least one text body. -/
def countShapesWithTxBody (s : Slide) : Nat :=
  (s.shapes.filter (fun sh => !sh.txBodys.isEmpty)).length

/-- A slide whose only shape has a text body with no paragraphs. -/
def slideWithEmptyTextBody : Slide :=
  { shapes := [{ txBodys := [{ paras := [] }] }] }

/-- A slide with one text-carrying shape and one shape without a text
body. -/
def slideWithAndWithoutText : Slide :=
  { shapes :=
      [{ txBodys := [{ paras := [{ runs := [{ t := some "Hi" }], br := false, endParaRPr := false }] }] },
       { txBodys := [] }] }

/-- An `xml2js` attribute object (the value at key `"$"`): every value is
a string. -/
def isAttrObj : JSVal → Bool
  | .obj kvs => kvs.all (fun kv => match kv.2 with | .str _ => true | _ => false)
  | _ => false

mutual

/-- The shape of element values in `xml2js` (default options) output: a
bare string (text-only element) or an object whose bindings satisfy
`xmlKVs`. -/
def xmlElem : JSVal → Bool
  | .str _ => true
  | .arr _ => false
  | .obj kvs => xmlKVs kvs

/-- The bindings of an `xml2js` element object: `"$"` holds an attribute
object, `"_"` holds the text content, and every other key holds the
non-empty array of child elements with that tag. -/
def xmlKVs : List (String × JSVal) → Bool
  | [] => true
  | (k, v) :: rest =>
    (if k = "$" then isAttrObj v
     else if k = "_" then (match v with | .str _ => true | _ => false)
     else match v with
       | .arr l => !l.isEmpty && xmlList l
       | _ => false) && xmlKVs rest

/-- Every entry of a child list is an element value. -/
def xmlList : List JSVal → Bool
  | [] => true
  | v :: rest => xmlElem v && xmlList rest

end

/-! ## Refinement lemmas: the embedded extractor on structured slides -/

theorem processRun_runToJSVal (r : Run) :
    processRun (runToJSVal r) =
      match r.t with
      | some s => [some (JSVal.str s)]
      | none => [] := by
  cases h : r.t <;>
    simp [processRun, runToJSVal, h, getProp, lookupKV, truthy, index0, Option.bind]

theorem runs_tokens (rs : List Run) :
    (List.map processRun (List.map runToJSVal rs)).flatten =
      (rs.filterMap (fun r => r.t)).map (fun s => some (JSVal.str s)) := by
  induction rs with
  | nil => rfl
  | cons r rest ih =>
    simp only [List.map_cons, List.flatten_cons, processRun_runToJSVal, List.filterMap_cons, ih]
    cases h : r.t <;> simp [h]

theorem processParagraph_eq (paragraph : JSVal) (runs : List JSVal)
    (h : getProp paragraph "a:r" = some (.arr runs)) :
    processParagraph paragraph =
      some (stepTokens ((runs.map processRun).flatten)
        (truthy (getProp paragraph "a:br")) (truthy (getProp paragraph "a:endParaRPr"))) := by
  simp [processParagraph, h, truthy, stepTokens]

theorem stepTokens_map (T : List String) (br eop : Bool) :
    stepTokens (T.map (fun s => some (JSVal.str s))) br eop =
      (paraTokensOf T br eop).map (fun s => some (JSVal.str s)) := by
  cases br <;> cases eop <;> by_cases hT : T = [] <;>
    simp [stepTokens, paraTokensOf, hT, List.isEmpty_iff, List.length_eq_zero]

theorem processParagraph_paragraphToJSVal (p : Paragraph) :
    processParagraph (paragraphToJSVal p) =
      some ((paraTokens p).map (fun s => some (JSVal.str s))) := by
  obtain ⟨rs, br, eop⟩ := p
  have har : getProp (paragraphToJSVal ⟨rs, br, eop⟩) "a:r" =
      if rs.isEmpty then none else some (JSVal.arr (rs.map runToJSVal)) := by
    cases rs <;> cases br <;> cases eop <;> simp [paragraphToJSVal, getProp, lookupKV]
  have habr : getProp (paragraphToJSVal ⟨rs, br, eop⟩) "a:br" =
      if br then some (JSVal.arr [JSVal.str ""]) else none := by
    cases rs <;> cases br <;> cases eop <;> simp [paragraphToJSVal, getProp, lookupKV]
  have haeop : getProp (paragraphToJSVal ⟨rs, br, eop⟩) "a:endParaRPr" =
      if eop then some (JSVal.arr [JSVal.str ""]) else none := by
    cases rs <;> cases br <;> cases eop <;> simp [paragraphToJSVal, getProp, lookupKV]
  cases rs with
  | nil =>
    cases br <;> cases eop <;>
      simp [processParagraph, har, habr, haeop, truthy, paraTokens, paraTokensOf, runTexts]
  | cons r rest =>
    have hX := runs_tokens (r :: rest)
    have h1 := processParagraph_eq (paragraphToJSVal ⟨r :: rest, br, eop⟩)
      ((r :: rest).map runToJSVal) (by rw [har]; rfl)
    rw [h1, hX, habr, haeop]
    cases br <;> cases eop <;>
      simp [stepTokens_map, truthy, paraTokens, paraTokensOf, runTexts]

theorem mapOpt_map_some (l : List α) (g : α → β) (f : β → Option γ) (h : α → γ)
    (hf : ∀ x ∈ l, f (g x) = some (h x)) :
    mapOpt f (l.map g) = some (l.map h) := by
  induction l with
  | nil => rfl
  | cons x xs ih =>
    simp only [List.map_cons, mapOpt, hf x (List.mem_cons_self x xs)]
    rw [ih (fun y hy => hf y (List.mem_cons_of_mem x hy))]
    rfl

theorem filterMap_eq_map_of (l : List α) (f : α → Option β) (g : α → β)
    (h : ∀ x ∈ l, f x = some (g x)) : l.filterMap f = l.map g := by
  induction l with
  | nil => rfl
  | cons x xs ih =>
    simp only [List.filterMap_cons, h x (List.mem_cons_self x xs), List.map_cons]
    rw [ih (fun y hy => h y (List.mem_cons_of_mem x hy))]

theorem flatten_map_toList (l : List α) (f : α → Option β) :
    (l.map (fun x => (f x).toList)).flatten = l.filterMap f := by
  induction l with
  | nil => rfl
  | cons x xs ih =>
    cases h : f x <;> simp [h, ih]

theorem paraTokens_ne_nil (p : Paragraph) : paraTokens p ≠ [] := by
  unfold paraTokens paraTokensOf
  by_cases h : (if p.br then runTexts p ++ ["\n"] else runTexts p).isEmpty || p.endParaRPr <;>
    simp_all [List.isEmpty_iff]


theorem joinTokens_map_str (l : List String) :
    joinTokens (l.map (fun s => some (JSVal.str s))) = String.join l := by
  unfold joinTokens
  rw [List.map_map]
  have h : (tokenToString ∘ fun s => some (JSVal.str s)) = id := by
    funext s
    simp [Function.comp, tokenToString, jsToString]
  rw [h, List.map_id]

theorem processTextBody_txBodyToJSVal (tb : TxBody) :
    processTextBody (txBodyToJSVal tb) = some (txBodyBlock tb).toList := by
  obtain ⟨paras⟩ := tb
  cases paras with
  | nil => simp [processTextBody, txBodyToJSVal, txBodyBlock, getProp, lookupKV, truthy]
  | cons p ps =>
    have hget : getProp (txBodyToJSVal ⟨p :: ps⟩) "a:p" =
        some (JSVal.arr (List.map paragraphToJSVal (p :: ps))) := by
      simp [txBodyToJSVal, getProp, lookupKV]
    have hmap := mapOpt_map_some (p :: ps) paragraphToJSVal processParagraph
      (fun q => (paraTokens q).map (fun s => some (JSVal.str s)))
      (fun q _ => processParagraph_paragraphToJSVal q)
    have hfm := filterMap_eq_map_of (p :: ps)
      ((fun toks : List (Option JSVal) =>
          if toks.length > 0 then some (joinTokens toks) else none) ∘
        (fun q => (paraTokens q).map (fun s => some (JSVal.str s))))
      paraString
      (fun q _ => by
        have hq := paraTokens_ne_nil q
        have hlen : 0 < (paraTokens q).length := List.length_pos.mpr hq
        simp [Function.comp, hlen, joinTokens_map_str, paraString])
    simp only [processTextBody, hget, truthy, hmap]
    rw [List.filterMap_map, hfm]
    simp [txBodyBlock]

theorem processShape_shapeToJSVal (sh : Shape) :
    processShape (shapeToJSVal sh) = some (shapeBlocks sh) := by
  obtain ⟨tbs⟩ := sh
  cases tbs with
  | nil => simp [processShape, shapeToJSVal, shapeBlocks, getProp, lookupKV, truthy]
  | cons tb rest =>
    have hget : getProp (shapeToJSVal ⟨tb :: rest⟩) "p:txBody" =
        some (JSVal.arr (List.map txBodyToJSVal (tb :: rest))) := by
      simp [shapeToJSVal, getProp, lookupKV]
    have hmap := mapOpt_map_some (tb :: rest) txBodyToJSVal processTextBody
      (fun b => (txBodyBlock b).toList)
      (fun b _ => processTextBody_txBodyToJSVal b)
    simp only [processShape, hget, truthy, hmap]
    rw [Option.map_some']
    rw [flatten_map_toList]
    rfl

theorem extract_eq_mapOpt (shapes : List Shape) :
    extractTextFromSlide (slideToJSVal ⟨shapes⟩) =
      (mapOpt processShape (shapes.map shapeToJSVal)).map List.flatten := by
  cases shapes with
  | nil => simp [extractTextFromSlide, slideToJSVal, getProp, lookupKV, truthy, index0, mapOpt]
  | cons sh rest =>
    simp only [extractTextFromSlide, slideToJSVal, List.isEmpty_cons, Bool.false_eq_true,
      ite_false, if_true, if_false, getProp, lookupKV, truthy, index0, Option.bind]

theorem extractTextFromSlide_slideToJSVal (s : Slide) :
    extractTextFromSlide (slideToJSVal s) = some (slideBlocks s) := by
  obtain ⟨shapes⟩ := s
  rw [extract_eq_mapOpt,
    mapOpt_map_some shapes shapeToJSVal processShape shapeBlocks
      (fun b _ => processShape_shapeToJSVal b)]
  rfl

theorem shapeBlocks_length_le (sh : Shape) (h : sh.txBodys.length ≤ 1) :
    (shapeBlocks sh).length = if shapeContributes sh then 1 else 0 := by
  obtain ⟨tbs⟩ := sh
  cases tbs with
  | nil => rfl
  | cons tb rest =>
    cases rest with
    | nil => cases hp : tb.paras <;> simp [shapeBlocks, txBodyBlock, shapeContributes, hp]
    | cons t2 r2 =>
      exfalso
      have h2 : (tb :: t2 :: r2).length = r2.length + 2 := by simp
      simp only [h2] at h
      omega

theorem blocks_length_eq (shapes : List Shape)
    (h : ∀ sh ∈ shapes, sh.txBodys.length ≤ 1) :
    ((shapes.map shapeBlocks).flatten).length = (shapes.filter shapeContributes).length := by
  induction shapes with
  | nil => rfl
  | cons sh rest ih =>
    have hsh := shapeBlocks_length_le sh (h sh (List.mem_cons_self sh rest))
    have hr := ih (fun x hx => h x (List.mem_cons_of_mem sh hx))
    simp only [List.map_cons, List.flatten_cons, List.length_append, List.filter_cons]
    cases hc : shapeContributes sh <;> rw [hc] at hsh <;> simp at hsh <;>
      simp [hc, hsh, hr] <;> omega

theorem blocks_length_le (shapes : List Shape)
    (h : ∀ sh ∈ shapes, sh.txBodys.length ≤ 1) :
    ((shapes.map shapeBlocks).flatten).length ≤ shapes.length := by
  induction shapes with
  | nil => simp
  | cons sh rest ih =>
    have hsh := shapeBlocks_length_le sh (h sh (List.mem_cons_self sh rest))
    have hr := ih (fun x hx => h x (List.mem_cons_of_mem sh hx))
    simp only [List.map_cons, List.flatten_cons, List.length_append, List.length_cons]
    have h1 : (shapeBlocks sh).length ≤ 1 := by
      rw [hsh]
      split <;> omega
    omega

theorem blocks_length_lt (shapes : List Shape)
    (h : ∀ sh ∈ shapes, sh.txBodys.length ≤ 1)
    (h2 : ∃ sh ∈ shapes, sh.txBodys = []) :
    ((shapes.map shapeBlocks).flatten).length < shapes.length := by
  induction shapes with
  | nil => simp at h2
  | cons sh rest ih =>
    have hsh := shapeBlocks_length_le sh (h sh (List.mem_cons_self sh rest))
    have hle := blocks_length_le rest (fun x hx => h x (List.mem_cons_of_mem sh hx))
    simp only [List.map_cons, List.flatten_cons, List.length_append, List.length_cons]
    obtain ⟨w, hw, hwe⟩ := h2
    rcases List.mem_cons.mp hw with rfl | hw2
    · have hc : shapeContributes w = false := by simp [shapeContributes, hwe]
      rw [hc] at hsh
      simp only [Bool.false_eq_true, if_false] at hsh
      omega
    · have hlt := ih (fun x hx => h x (List.mem_cons_of_mem sh hx)) ⟨w, hw2, hwe⟩
      have h1 : (shapeBlocks sh).length ≤ 1 := by
        rw [hsh]
        split <;> omega
      omega

/-- C3 (amended): for every slide tree in which each shape carries at most
one text body, `extractTextFromSlide` emits exactly one TextBlock per
shape whose text body contains at least one paragraph, in shape document
order; a shape without such a text body contributes no entry, and when a
shape without a text body is present the output is strictly shorter than
the shape count. -/
theorem extract_blocks_match_contributing_shapes (s : Slide)
    (h : ∀ sh ∈ s.shapes, sh.txBodys.length ≤ 1) :
    extractTextFromSlide (slideToJSVal s) = some (slideBlocks s) ∧
    (slideBlocks s).length = (s.shapes.filter shapeContributes).length ∧
    ((∃ sh ∈ s.shapes, sh.txBodys = []) → (slideBlocks s).length < s.shapes.length) := by
  obtain ⟨shapes⟩ := s
  exact ⟨extractTextFromSlide_slideToJSVal _, blocks_length_eq shapes h,
    fun h2 => blocks_length_lt shapes h h2⟩

/-- Witness for C3 (amended) at a slide with one text-carrying shape and
one shape without a text body: one block, strictly fewer blocks than
shapes. -/
theorem extract_blocks_match_contributing_shapes_witness :
    extractTextFromSlide (slideToJSVal slideWithAndWithoutText) = some ["Hi"] ∧
    (slideBlocks slideWithAndWithoutText).length < 2 := by
  have h := extract_blocks_match_contributing_shapes slideWithAndWithoutText (by decide)
  exact ⟨h.1, h.2.2 ⟨{ txBodys := [] }, by decide, rfl⟩⟩

/-- C3 counterexample: the slide whose single shape contains a text body
with no paragraphs has one shape with a text body, yet
`extractTextFromSlide` emits no TextBlock at all — refuting "exactly one
TextBlock per shape that contains a text body". -/
theorem extract_shape_with_empty_textBody_cex :
    countShapesWithTxBody slideWithEmptyTextBody = 1 ∧
    extractTextFromSlide (slideToJSVal slideWithEmptyTextBody) = some [] :=
  ⟨rfl, rfl⟩

/-- C4: a text body with a first paragraph holding the single run "Hello"
and a second, empty paragraph emits the TextBlock "Hello\n\n" — the empty
paragraph contributes a lone newline token, and paragraph strings are
joined with a newline separator. -/
theorem extract_hello_then_empty_paragraph :
    processTextBody (txBodyToJSVal { paras :=
        [{ runs := [{ t := some "Hello" }], br := false, endParaRPr := false },
         { runs := [], br := false, endParaRPr := false }] }) =
      some ["Hello\n\n"] := rfl

/-- C5: a paragraph with the runs "Hello " and "World", no break marker
and no end-of-paragraph marker, produces exactly the token "Hello World":
run texts are concatenated in order with no separator and inner
whitespace kept verbatim. -/
theorem paragraph_run_concatenation :
    (processParagraph (paragraphToJSVal
        { runs := [{ t := some "Hello " }, { t := some "World" }],
          br := false, endParaRPr := false })).map joinTokens =
      some "Hello World" := rfl

/-- C6: a paragraph with the single run "Line1" and an explicit
line-break marker (and no end-of-paragraph marker) produces exactly the
token "Line1\n": the break marker appends a newline after the run text. -/
theorem paragraph_explicit_break :
    (processParagraph (paragraphToJSVal
        { runs := [{ t := some "Line1" }], br := true, endParaRPr := false })).map joinTokens =
      some "Line1\n" := rfl

/-- C10: every paragraph of a non-empty text body produces at least one
token, so the zero-token guard never fires: the text body always emits a
TextBlock, and that TextBlock is the newline-join of exactly one string
per paragraph. -/
theorem textBody_always_emits_block (paras : List Paragraph) (h : paras ≠ []) :
    processTextBody (txBodyToJSVal { paras := paras }) =
      some [String.intercalate "\n" (paras.map paraString)] ∧
    (paras.map paraString).length = paras.length ∧
    ∀ p ∈ paras, ∃ toks, processParagraph (paragraphToJSVal p) = some toks ∧ toks ≠ [] := by
  refine ⟨?_, by simp, ?_⟩
  · rw [processTextBody_txBodyToJSVal { paras := paras }]
    simp [txBodyBlock, List.isEmpty_iff, h]
  · intro p hp
    refine ⟨(paraTokens p).map (fun s => some (JSVal.str s)),
      processParagraph_paragraphToJSVal p, ?_⟩
    intro hc
    exact paraTokens_ne_nil p (by simpa using hc)

/-- Witness for C10 at a text body with one empty paragraph: the emitted
TextBlock is a lone newline. -/
theorem textBody_always_emits_block_witness :
    ([{ runs := [], br := false, endParaRPr := false }] : List Paragraph) ≠ [] ∧
    processTextBody (txBodyToJSVal
        { paras := [{ runs := [], br := false, endParaRPr := false }] }) =
      some ["\n"] :=
  ⟨by decide,
    (textBody_always_emits_block [{ runs := [], br := false, endParaRPr := false }] (by decide)).1⟩

theorem xmlList_mem {l : List JSVal} (h : xmlList l = true) {x : JSVal} (hx : x ∈ l) :
    xmlElem x = true := by
  induction l with
  | nil => cases hx
  | cons a rest ih =>
    rw [xmlList, Bool.and_eq_true] at h
    rcases List.mem_cons.mp hx with rfl | hx2
    · exact h.1
    · exact ih h.2 hx2

theorem xmlKVs_tail {k1 : String} {v1 : JSVal} {rest : List (String × JSVal)}
    (h : xmlKVs ((k1, v1) :: rest) = true) : xmlKVs rest = true := by
  cases v1 <;> by_cases h1 : k1 = "$" <;> by_cases h2 : k1 = "_" <;>
    simp [xmlKVs, h1, h2, isAttrObj] at h <;> tauto

theorem lookupKV_xmlKVs {kvs : List (String × JSVal)} (h : xmlKVs kvs = true) {k : String}
    {v : JSVal} (hk1 : k ≠ "$") (hk2 : k ≠ "_") (hl : lookupKV kvs k = some v) :
    ∃ l, v = JSVal.arr l ∧ l ≠ [] ∧ xmlList l = true := by
  induction kvs with
  | nil => simp [lookupKV] at hl
  | cons kv rest ih =>
    obtain ⟨k1, v1⟩ := kv
    rw [lookupKV] at hl
    by_cases he : k1 = k
    · subst he
      rw [if_pos rfl] at hl
      injection hl with hv
      subst hv
      cases v1 with
      | str s => simp [xmlKVs, hk1, hk2] at h
      | obj kvs2 => simp [xmlKVs, hk1, hk2] at h
      | arr l =>
        simp [xmlKVs, hk1, hk2] at h
        exact ⟨l, rfl, h.1.1, h.1.2⟩
    · rw [if_neg he] at hl
      exact ih (xmlKVs_tail h) hl

theorem getProp_xmlElem {e : JSVal} (he : xmlElem e = true) {k : String} {v : JSVal}
    (hk1 : k ≠ "$") (hk2 : k ≠ "_") (h : getProp e k = some v) :
    ∃ l, v = JSVal.arr l ∧ l ≠ [] ∧ xmlList l = true := by
  cases e with
  | str s => simp [getProp] at h
  | arr l => simp [getProp] at h
  | obj kvs =>
    rw [xmlElem] at he
    exact lookupKV_xmlKVs he hk1 hk2 h

theorem mapOpt_isSome {f : α → Option β} {l : List α}
    (h : ∀ x ∈ l, (f x).isSome = true) : (mapOpt f l).isSome = true := by
  induction l with
  | nil => rfl
  | cons x xs ih =>
    have hx := h x (List.mem_cons_self x xs)
    rw [mapOpt]
    cases hfx : f x with
    | none => rw [hfx] at hx; simp at hx
    | some y =>
      have hr := ih (fun z hz => h z (List.mem_cons_of_mem x hz))
      cases hxs : mapOpt f xs with
      | none => rw [hxs] at hr; simp at hr
      | some ys => simp [hxs]

theorem processParagraph_isSome {p : JSVal} (hp : xmlElem p = true) :
    (processParagraph p).isSome = true := by
  cases hr : getProp p "a:r" with
  | none => simp [processParagraph, hr, truthy]
  | some v =>
    obtain ⟨l, rfl, _, _⟩ := getProp_xmlElem hp (by decide) (by decide) hr
    simp [processParagraph, hr, truthy]

theorem processTextBody_isSome {tb : JSVal} (htb : xmlElem tb = true) :
    (processTextBody tb).isSome = true := by
  cases hap : getProp tb "a:p" with
  | none => simp [processTextBody, hap, truthy]
  | some v =>
    obtain ⟨l, rfl, _, hl⟩ := getProp_xmlElem htb (by decide) (by decide) hap
    have hm := mapOpt_isSome (fun x hx => processParagraph_isSome (xmlList_mem hl hx))
    obtain ⟨ys, hys⟩ := Option.isSome_iff_exists.mp hm
    simp [processTextBody, hap, truthy, hys]

theorem processShape_isSome {sh : JSVal} (hsh : xmlElem sh = true) :
    (processShape sh).isSome = true := by
  cases htb : getProp sh "p:txBody" with
  | none => simp [processShape, htb, truthy]
  | some v =>
    obtain ⟨l, rfl, _, hl⟩ := getProp_xmlElem hsh (by decide) (by decide) htb
    have hm := mapOpt_isSome (fun x hx => processTextBody_isSome (xmlList_mem hl hx))
    obtain ⟨ys, hys⟩ := Option.isSome_iff_exists.mp hm
    simp [processShape, htb, truthy, hys]

/-- C9: on every input tree shaped like the XML parser's output
(`xmlElem` at the slide root), `extractTextFromSlide` never throws; when
the slide root, the content-tree container, the shape-tree node or the
shape list is absent it returns the empty sequence, and a run node
without a text-content child contributes no token. -/
theorem extract_never_throws (d : JSVal)
    (h : ∀ v, getProp d "p:sld" = some v → xmlElem v = true) :
    (extractTextFromSlide d).isSome = true ∧
    (getProp d "p:sld" = none → extractTextFromSlide d = some []) ∧
    (∀ v, getProp d "p:sld" = some v → getProp v "p:cSld" = none →
      extractTextFromSlide d = some []) ∧
    (∀ v c0 cs, getProp d "p:sld" = some v →
      getProp v "p:cSld" = some (JSVal.arr (c0 :: cs)) →
      getProp c0 "p:spTree" = none → extractTextFromSlide d = some []) ∧
    (∀ v c0 cs t0 ts, getProp d "p:sld" = some v →
      getProp v "p:cSld" = some (JSVal.arr (c0 :: cs)) →
      getProp c0 "p:spTree" = some (JSVal.arr (t0 :: ts)) →
      getProp t0 "p:sp" = none → extractTextFromSlide d = some []) ∧
    (∀ run, getProp run "a:t" = none → processRun run = []) := by
  refine ⟨?_, ?_, ?_, ?_, ?_, ?_⟩
  · cases hs : getProp d "p:sld" with
    | none => simp [extractTextFromSlide, hs, truthy]
    | some v =>
      have hv := h v hs
      by_cases htv : truthy (some v) = true
      · cases hc : getProp v "p:cSld" with
        | none => simp [extractTextFromSlide, hs, htv, hc, truthy, Option.bind]
        | some w =>
          obtain ⟨l, rfl, hne, hl⟩ := getProp_xmlElem hv (by decide) (by decide) hc
          cases l with
          | nil => exact absurd rfl hne
          | cons c0 cs =>
            have hc0 := xmlList_mem hl (List.mem_cons_self c0 cs)
            cases hsp : getProp c0 "p:spTree" with
            | none =>
              simp [extractTextFromSlide, hs, htv, hc, hsp, truthy, index0, Option.bind]
            | some u =>
              obtain ⟨l2, rfl, hne2, hl2⟩ := getProp_xmlElem hc0 (by decide) (by decide) hsp
              cases l2 with
              | nil => exact absurd rfl hne2
              | cons t0 ts =>
                have ht0 := xmlList_mem hl2 (List.mem_cons_self t0 ts)
                cases hq : getProp t0 "p:sp" with
                | none =>
                  simp [extractTextFromSlide, hs, htv, hc, hsp, hq, truthy, index0, Option.bind]
                | some z =>
                  obtain ⟨l3, rfl, hne3, hl3⟩ := getProp_xmlElem ht0 (by decide) (by decide) hq
                  have hm := mapOpt_isSome
                    (fun x hx => processShape_isSome (xmlList_mem hl3 hx))
                  obtain ⟨ys, hys⟩ := Option.isSome_iff_exists.mp hm
                  simp only [extractTextFromSlide, hs, htv, hc, hsp, hq, truthy, index0,
                    Option.bind, hys]
                  split <;> rfl
      · simp [extractTextFromSlide, hs, htv]
  · intro h0
    simp [extractTextFromSlide, h0, truthy]
  · intro v hs hc
    by_cases htv : truthy (some v) = true <;>
      simp [extractTextFromSlide, hs, htv, hc, truthy, Option.bind]
  · intro v c0 cs hs hc hsp
    by_cases htv : truthy (some v) = true <;>
      simp [extractTextFromSlide, hs, htv, hc, hsp, truthy, index0, Option.bind]
  · intro v c0 cs t0 ts hs hc hsp hq
    by_cases htv : truthy (some v) = true <;>
      simp [extractTextFromSlide, hs, htv, hc, hsp, hq, truthy, index0, Option.bind]
  · intro run hrt
    simp [processRun, hrt, truthy]

/-- Witness for C9 at a parser-shaped tree whose shape-tree node has no
shape list: extraction succeeds with the empty sequence (via the
absent-shape-list conjunct), and a run without a text-content child
contributes nothing. -/
theorem extract_never_throws_witness :
    (extractTextFromSlide (JSVal.obj [("p:sld", JSVal.obj [("p:cSld",
        JSVal.arr [JSVal.obj [("p:spTree", JSVal.arr [JSVal.obj []])]])])])).isSome = true ∧
    extractTextFromSlide (JSVal.obj [("p:sld", JSVal.obj [("p:cSld",
        JSVal.arr [JSVal.obj [("p:spTree", JSVal.arr [JSVal.obj []])]])])]) = some [] ∧
    processRun (JSVal.obj []) = [] := by
  have h := extract_never_throws
    (JSVal.obj [("p:sld", JSVal.obj [("p:cSld",
      JSVal.arr [JSVal.obj [("p:spTree", JSVal.arr [JSVal.obj []])]])])])
    (fun v hv => by
      simp [getProp, lookupKV] at hv
      subst hv
      simp [xmlElem, xmlKVs, xmlList, isAttrObj])
  refine ⟨h.1, ?_, h.2.2.2.2.2 (JSVal.obj []) rfl⟩
  exact h.2.2.2.2.1
    (JSVal.obj [("p:cSld", JSVal.arr [JSVal.obj [("p:spTree", JSVal.arr [JSVal.obj []])]])])
    (JSVal.obj [("p:spTree", JSVal.arr [JSVal.obj []])]) []
    (JSVal.obj []) []
    rfl rfl rfl rfl

theorem relFromRecord_wf {r : JSVal} (hr : relRecordWF r = true) :
    relFromRecord r =
      some (if relTypeEndsSlide r then some (mkSlideRelation r) else none) := by
  cases hd : getProp r "$" with
  | none => simp [relRecordWF, hd] at hr
  | some attrs =>
    cases ht : getProp attrs "Type" with
    | none => simp [relRecordWF, hd, ht] at hr
    | some tv =>
      cases tv with
      | str ty =>
        by_cases he : jsEndsWith ty "/slide" = true <;>
          simp [relFromRecord, relTypeEndsSlide, mkSlideRelation, hd, ht, he]
      | obj o => simp [relRecordWF, hd, ht] at hr
      | arr a => simp [relRecordWF, hd, ht] at hr

theorem mapOpt_relFromRecord (records : List JSVal)
    (h : ∀ r ∈ records, relRecordWF r = true) :
    mapOpt relFromRecord records =
      some (records.map
        (fun r => if relTypeEndsSlide r then some (mkSlideRelation r) else none)) := by
  induction records with
  | nil => rfl
  | cons r rest ih =>
    rw [mapOpt, relFromRecord_wf (h r (List.mem_cons_self r rest)),
      ih (fun x hx => h x (List.mem_cons_of_mem r hx))]
    rfl

theorem filterMap_id_ite (records : List JSVal) :
    (records.map
        (fun r => if relTypeEndsSlide r then some (mkSlideRelation r) else none)).filterMap id =
      (records.filter relTypeEndsSlide).map mkSlideRelation := by
  induction records with
  | nil => rfl
  | cons r rest ih =>
    by_cases hp : relTypeEndsSlide r = true <;> simp [hp, List.filter_cons, ih]

/-- C2: for every relationships document whose records carry a string
`Type` attribute, a record is included in the output of
`getSlideRelations` iff its `Type` value ends with the literal,
case-sensitive suffix "/slide" (so records ending in "/slideLayout" or
"/slideMaster" are excluded), and matching records keep their document
order (a filter, no sorting). -/
theorem getSlideRelations_filter (records : List JSVal)
    (h : ∀ r ∈ records, relRecordWF r = true) :
    getSlideRelations
        (.obj [("Relationships", .obj [("Relationship", .arr records)])]) =
      some ((records.filter relTypeEndsSlide).map mkSlideRelation) := by
  simp [getSlideRelations, getProp, lookupKV, mapOpt_relFromRecord records h,
    filterMap_id_ite records]

/-- Witness for C2 at a document with a "/slide", a "/slideLayout" and a
"/slideMaster" record: only the "/slide" record is kept. -/
theorem getSlideRelations_filter_witness :
    getSlideRelations (.obj [("Relationships", .obj [("Relationship", .arr
        [.obj [("$", .obj [("Id", .str "rId1"),
            ("Type", .str "http://x/slideLayout"), ("Target", .str "slideLayouts/sl1.xml")])],
         .obj [("$", .obj [("Id", .str "rId2"),
            ("Type", .str "http://x/slide"), ("Target", .str "slides/slide1.xml")])],
         .obj [("$", .obj [("Id", .str "rId3"),
            ("Type", .str "http://x/slideMaster"), ("Target", .str "slideMasters/sm1.xml")])]])])]) =
      some [{ id := some (.str "rId2"), target := some (.str "slides/slide1.xml") }] := by
  rw [getSlideRelations_filter _ (by
    intro r hr
    fin_cases hr <;> rfl)]
  rfl

theorem loadSlide_ok {files : List Entry} {rel : SlideRelation}
    (h : ((findFile files ("ppt/" ++ templateStr rel.target)).all
        (fun f => f.parsed.isSome)) = true) :
    loadSlide files rel = .ok ((findFile files ("ppt/" ++ templateStr rel.target)).bind
      (fun f => f.parsed.map (fun pv =>
        { id := rel.id, path := f.path, xml := f.xml, parsed := pv }))) := by
  unfold loadSlide
  cases hf : findFile files ("ppt/" ++ templateStr rel.target) with
  | none => simp
  | some f =>
    rw [hf] at h
    simp [Option.all] at h
    cases hp : f.parsed with
    | none => rw [hp] at h; simp at h
    | some pv => simp [hp]

theorem mapExcept_ok {f : α → Except ε β} {g : α → β} {l : List α}
    (h : ∀ x ∈ l, f x = .ok (g x)) : mapExcept f l = .ok (l.map g) := by
  induction l with
  | nil => rfl
  | cons x xs ih =>
    rw [mapExcept, h x (List.mem_cons_self x xs),
      ih (fun y hy => h y (List.mem_cons_of_mem x hy))]
    rfl

theorem slides_filterMap_length {files : List Entry} (rels : List SlideRelation)
    (h : ∀ rel ∈ rels, ((findFile files ("ppt/" ++ templateStr rel.target)).all
        (fun f => f.parsed.isSome)) = true) :
    (rels.filterMap (fun rel =>
        (findFile files ("ppt/" ++ templateStr rel.target)).bind (fun f =>
          f.parsed.map (fun pv =>
            ({ id := rel.id, path := f.path, xml := f.xml, parsed := pv } : ParsedSlide))))).length =
      (rels.filter (fun rel =>
        (findFile files ("ppt/" ++ templateStr rel.target)).isSome)).length := by
  induction rels with
  | nil => rfl
  | cons rel rest ih =>
    have hrel := h rel (List.mem_cons_self rel rest)
    have hr := ih (fun x hx => h x (List.mem_cons_of_mem rel hx))
    simp only [List.filterMap_cons, List.filter_cons]
    cases hf : findFile files ("ppt/" ++ templateStr rel.target) with
    | none => simp [hr]
    | some f =>
      rw [hf] at hrel
      simp [Option.all] at hrel
      cases hp : f.parsed with
      | none => rw [hp] at hrel; simp at hrel
      | some pv => simp [hp, hr]

/-- C1: whenever both required parts are present and parse, and every
resolvable slide target parses, `parse` succeeds and its slide list holds
exactly one `ParsedSlide` per slide relation whose target resolves to an
archive entry, in relation order (the `filterMap` preserves the order of
`rels`, which `getSlideRelations` produced in document order); the length
of the slide list equals the number of resolvable relations. -/
theorem parse_slides_per_resolvable_relation
    (files : List Entry) (pe re : Entry) (pd rd : JSVal) (rels : List SlideRelation)
    (h1 : findFile files "ppt/presentation.xml" = some pe)
    (h2 : findFile files "ppt/_rels/presentation.xml.rels" = some re)
    (h3 : pe.parsed = some pd)
    (h4 : re.parsed = some rd)
    (h5 : getSlideRelations rd = some rels)
    (h6 : ∀ rel ∈ rels, ((findFile files ("ppt/" ++ templateStr rel.target)).all
        (fun f => f.parsed.isSome)) = true) :
    parse files = .ok
      { presentation := { path := "ppt/presentation.xml", xml := pe.xml, parsed := pd },
        relationships := { path := "ppt/_rels/presentation.xml.rels", xml := re.xml, parsed := rd },
        slides := rels.filterMap (fun rel =>
          (findFile files ("ppt/" ++ templateStr rel.target)).bind (fun f =>
            f.parsed.map (fun pv =>
              { id := rel.id, path := f.path, xml := f.xml, parsed := pv }))) } ∧
    (rels.filterMap (fun rel =>
        (findFile files ("ppt/" ++ templateStr rel.target)).bind (fun f =>
          f.parsed.map (fun pv =>
            ({ id := rel.id, path := f.path, xml := f.xml, parsed := pv } : ParsedSlide))))).length =
      (rels.filter (fun rel =>
        (findFile files ("ppt/" ++ templateStr rel.target)).isSome)).length := by
  constructor
  · have hload := mapExcept_ok (l := rels) (f := loadSlide files)
      (g := fun rel => (findFile files ("ppt/" ++ templateStr rel.target)).bind (fun f =>
        f.parsed.map (fun pv =>
          ({ id := rel.id, path := f.path, xml := f.xml, parsed := pv } : ParsedSlide))))
      (fun rel hrel => loadSlide_ok (h6 rel hrel))
    unfold parse parseInner parseXmlContent
    rw [h1, h2]
    simp only [h3, h4, h5, hload]
    rw [List.filterMap_map]
    rfl
  · exact slides_filterMap_length rels h6

/-- Witness for C1 at an archive where both slide targets resolve: the
slide list holds both slides in relation order. -/
theorem parse_slides_per_resolvable_relation_witness :
    (parse [presEntry, relsEntry, slide2Entry, slide3Entry]).map
        (fun r => r.slides.map (fun s => (s.id, s.path))) =
      .ok [(some (.str "rId2"), "ppt/slides/slide2.xml"),
           (some (.str "rId3"), "ppt/slides/slide3.xml")] := by
  have h := parse_slides_per_resolvable_relation
    [presEntry, relsEntry, slide2Entry, slide3Entry]
    presEntry relsEntry
    (.obj [("p:presentation", .str "")])
    (.obj [("Relationships", .obj [("Relationship", .arr
      [.obj [("$", .obj [("Id", .str "rId2"), ("Type", .str "http://x/slide"),
        ("Target", .str "slides/slide2.xml")])],
       .obj [("$", .obj [("Id", .str "rId3"), ("Type", .str "http://x/slide"),
        ("Target", .str "slides/slide3.xml")])]])])])
    [{ id := some (.str "rId2"), target := some (.str "slides/slide2.xml") },
     { id := some (.str "rId3"), target := some (.str "slides/slide3.xml") }]
    rfl rfl rfl rfl rfl
    (by intro rel hrel; fin_cases hrel <;> rfl)
  rw [h.1]
  rfl

/-- C7: when either required entry (`ppt/presentation.xml` or
`ppt/_rels/presentation.xml.rels`) is absent from the archive, `parse`
fails with the wrapped "Invalid PPTX file structure" error and returns no
`ParsedPresentation`. -/
theorem parse_missing_required (files : List Entry)
    (h : findFile files "ppt/presentation.xml" = none ∨
         findFile files "ppt/_rels/presentation.xml.rels" = none) :
    parse files =
      .error (.message "Failed to parse PPTX: Invalid PPTX file structure") := by
  unfold parse parseInner
  rcases h with h | h
  · rw [h]
    cases findFile files "ppt/_rels/presentation.xml.rels" <;> rfl
  · rw [h]
    cases findFile files "ppt/presentation.xml" <;> rfl

/-- Witness for C7 at an archive holding only the presentation part: the
relationships part is missing and `parse` fails. -/
theorem parse_missing_required_witness :
    (findFile [presEntry] "ppt/presentation.xml" = none ∨
     findFile [presEntry] "ppt/_rels/presentation.xml.rels" = none) ∧
    parse [presEntry] =
      .error (.message "Failed to parse PPTX: Invalid PPTX file structure") :=
  ⟨Or.inr rfl, parse_missing_required [presEntry] (Or.inr rfl)⟩

/-- C8: a slide relation whose prefixed target matches no archive entry
is resolved to `null` rather than an error, so it is silently dropped by
the final filter; in particular, for the archive with slide relations
`rId2` then `rId3` where only the `rId3` target file exists, `parse`
succeeds and yields a slide list of length one containing only the
`rId3` slide. -/
theorem parse_drops_missing_slide_target :
    (∀ (files : List Entry) (rel : SlideRelation),
        findFile files ("ppt/" ++ templateStr rel.target) = none →
        loadSlide files rel = .ok none) ∧
    (parse [presEntry, relsEntry, slide3Entry]).map
        (fun r => r.slides.map (fun s => (s.id, s.path))) =
      .ok [(some (.str "rId3"), "ppt/slides/slide3.xml")] ∧
    (parse [presEntry, relsEntry, slide3Entry]).map (fun r => r.slides.length) = .ok 1 := by
  refine ⟨?_, rfl, rfl⟩
  intro files rel hf
  unfold loadSlide
  rw [hf]

/-- Witness for C8: the dangling `rId2` relation of the scenario archive
resolves to `null`, not an error. -/
theorem parse_drops_missing_slide_target_witness :
    loadSlide [presEntry, relsEntry, slide3Entry]
        { id := some (.str "rId2"), target := some (.str "slides/slide2.xml") } = .ok none :=
  parse_drops_missing_slide_target.1 [presEntry, relsEntry, slide3Entry]
    { id := some (.str "rId2"), target := some (.str "slides/slide2.xml") } rfl
